import Mathlib

/-!
Verification development for the umoci CAS engine and repack driver.

The repository provides three source files: two versions of the CAS `Engine`
interface declaration (`oci/cas/cas.go`, index-based and reference-based) and
the repack command driver (`cmd/umoci/repack.go`).  The CAS engine
implementations themselves (the `dir` backend, `casext`, `mtreefilter`,
`mutate`) are not part of the provided sources, so their behaviour is modelled
from the specification; the repack driver is embedded directly from
`repack.go`.

Machine details abstracted in the shallow embedding: blob contents are
`List Nat` byte sequences, the digest algorithm is an injective executable
encoding standing in for SHA-256 (the spec assumes digest equality iff content
equality), and filesystem paths are lists of path segments.
-/

namespace Umoci

/-! Section: Digest primitives

Modelled from the spec: a Digest is an algorithm-tagged content hash with a
single fixed algorithm; two digests are equal iff the referenced byte
sequences are identical.  We use an injective executable encoding of byte
sequences into naturals as the hash function. -/

/-- Modelled from the spec: the content-hash function of the single supported
algorithm (`BlobAlgorithm`).  Injective, standing in for SHA-256 under the
spec's collision-freeness assumption. -/
def digestOf : List Nat → Nat
  | [] => 0
  | x :: xs => Nat.pair x (digestOf xs) + 1

theorem digestOf_injective : Function.Injective digestOf := by
  intro a b h
  induction a generalizing b with
  | nil =>
    cases b with
    | nil => rfl
    | cons y ys => simp [digestOf] at h
  | cons x xs ih =>
    cases b with
    | nil => simp [digestOf] at h
    | cons y ys =>
      simp only [digestOf, Nat.add_right_cancel_iff] at h
      have h2 := congrArg Nat.unpair h
      rw [Nat.unpair_pair, Nat.unpair_pair] at h2
      have hx : x = y := congrArg Prod.fst h2
      have hxs : digestOf xs = digestOf ys := congrArg Prod.snd h2
      rw [hx, ih hxs]

/-! Section: OCI data model (from `cas.go` and the image-spec types used there) -/

/-- OCI content descriptor: a typed pointer to a blob
(`ispec.Descriptor` as used by `cas.go`). -/
structure Descriptor where
  mediaType : String
  digest : Nat
  size : Nat
deriving DecidableEq

/-- OCI image index: the top-level entry point of the index-based engine
(`ispec.ImageIndex` as used by `PutIndex`/`GetIndex`). -/
structure ImageIndex where
  manifests : List Descriptor
deriving DecidableEq

/-- An ordered chain from the store root down to a specific descriptor,
as returned by `mutate.Mutator.Commit` and stored in `meta.From`.
Only the two endpoints used by `repack.go` are modelled. -/
structure DescriptorPath where
  root : Descriptor
  descriptor : Descriptor
deriving DecidableEq

/-- The value of `ispec.MediaTypeImageManifest`, which `repack.go` compares
the saved `From` descriptor's media type against. -/
def MediaTypeImageManifest : String := "application/vnd.oci.image.manifest.v1+json"

/-! Section: CAS store state

Modelled from the spec: the on-disk layout of the directory-backed engine is a
blob directory keyed by digest, a single index file (or, in the legacy
variant, named reference files), and possibly orphaned temporary artifacts
left by interrupted writes.  The store is a flat list of such entries. -/

/-- Modelled from the spec: one on-disk artifact of the CAS store. -/
inductive StoreEntry where
  | blob : Nat → List Nat → StoreEntry
  | ref : String → Descriptor → StoreEntry
  | indexFile : ImageIndex → StoreEntry
  | tempFile : String → StoreEntry
deriving DecidableEq

/-- Whether an entry is a temporary artifact (not reachable from the CAS
interface). -/
def StoreEntry.isTemp : StoreEntry → Bool
  | .tempFile _ => true
  | _ => false

/-- Modelled from the spec: the backing state of a CAS engine. -/
structure CasStore where
  entries : List StoreEntry
deriving DecidableEq

/-- Well-formedness: every published blob entry is stored under the digest of
its own content (the content-addressing invariant). -/
def CasStore.WF (s : CasStore) : Prop :=
  ∀ d c, StoreEntry.blob d c ∈ s.entries → d = digestOf c

/-! Section: CAS engine operations

Modelled from the spec (the engine implementation is not among the provided
sources; only the `Engine` interface declaration is). -/

/-- Modelled from the spec: `GetBlob(digest)` returns the blob's content, or
NotExist (`none`) if the digest is absent. -/
def GetBlob (d : Nat) (s : CasStore) : Option (List Nat) :=
  s.entries.findSome? fun e =>
    match e with
    | .blob d' c => if d' = d then some c else none
    | _ => none

/-- Modelled from the spec: `PutBlob(content)` computes the content digest and
publishes the blob at its digest-derived path; if a blob already exists there
the write is a no-op success.  Returns `(digest, size)` and the new store. -/
def PutBlob (content : List Nat) (s : CasStore) : (Nat × Nat) × CasStore :=
  let d := digestOf content
  match GetBlob d s with
  | some _ => ((d, content.length), s)
  | none => ((d, content.length), ⟨StoreEntry.blob d content :: s.entries⟩)

/-- Modelled from the spec: `DeleteBlob(digest)` removes the blob; idempotent,
absence is success (it never fails). -/
def DeleteBlob (d : Nat) (s : CasStore) : CasStore :=
  ⟨s.entries.filter fun e =>
    match e with
    | .blob d' _ => decide (d' ≠ d)
    | _ => true⟩

/-- Modelled from the spec: `GetIndex()` reads the single top-level index. -/
def GetIndex (s : CasStore) : Option ImageIndex :=
  s.entries.findSome? fun e =>
    match e with
    | .indexFile i => some i
    | _ => none

/-- Modelled from the spec: `PutIndex(index)` atomically replaces the single
top-level index file with the provided index. -/
def PutIndex (i : ImageIndex) (s : CasStore) : CasStore :=
  ⟨StoreEntry.indexFile i :: s.entries.filter fun e =>
    match e with
    | .indexFile _ => false
    | _ => true⟩

/-- Modelled from the spec: `GetReference(name)` (legacy variant) returns the
descriptor stored under `name`, or NotExist (`none`). -/
def GetReference (n : String) (s : CasStore) : Option Descriptor :=
  s.entries.findSome? fun e =>
    match e with
    | .ref n' desc => if n' = n then some desc else none
    | _ => none

/-- Error values exposed by the engine (`cas.go`). -/
inductive CasError where
  | errClobber
  | errInvalid
  | errNotImplemented
deriving DecidableEq

/-- Modelled from the spec: `PutReference(name, descriptor)` (legacy variant)
stores the descriptor under `name`; idempotent when the same descriptor is
already stored, `ErrClobber` when a different one is. -/
def PutReference (n : String) (desc : Descriptor) (s : CasStore) :
    Except CasError CasStore :=
  match GetReference n s with
  | some old => if old = desc then .ok s else .error .errClobber
  | none => .ok ⟨StoreEntry.ref n desc :: s.entries⟩

/-- Modelled from the spec: `DeleteReference(name)` removes the reference;
idempotent, absence is success. -/
def DeleteReference (n : String) (s : CasStore) : CasStore :=
  ⟨s.entries.filter fun e =>
    match e with
    | .ref n' _ => decide (n' ≠ n)
    | _ => true⟩

/-- Modelled from the spec: `Clean()` removes only non-blob, non-reference
artifacts (orphaned temporary files from interrupted writes). -/
def Clean (s : CasStore) : CasStore :=
  ⟨s.entries.filter fun e => !e.isTemp⟩

/-! Section: JSON serialization (`PutBlobJSON`)

Modelled from the spec: `PutBlobJSON(object)` serializes the object to a
canonical, deterministic byte encoding (stable key ordering) and delegates to
`PutBlob`.  A JSON object is a list of key/value fields whose in-memory
ordering carries no meaning. -/

/-- A primitive JSON value (the nesting structure of values is irrelevant to
the key-ordering question, so values are kept flat). -/
inductive JVal where
  | jstr : String → JVal
  | jnum : Int → JVal
deriving DecidableEq

/-- A JSON object as held in memory: an ordered list of fields. -/
abbrev JObj := List (String × JVal)

/-- Encoding of a primitive JSON value. -/
def JVal.enc : JVal → String
  | .jstr v => "\"" ++ v ++ "\""
  | .jnum v => toString v

/-- Encoding of a single object field. -/
def encField (f : String × JVal) : String :=
  "\"" ++ f.1 ++ "\":" ++ f.2.enc

/-- Key ordering on fields used by the canonical serialization. -/
def keyLE (p q : String × JVal) : Prop := p.1 ≤ q.1

instance : DecidableRel keyLE := fun p q =>
  inferInstanceAs (Decidable (p.1 ≤ q.1))

instance : IsTotal (String × JVal) keyLE := ⟨fun p q => le_total p.1 q.1⟩

instance : IsTrans (String × JVal) keyLE := ⟨fun _ _ _ h1 h2 => le_trans h1 h2⟩

/-- Modelled from the spec: the canonical, deterministic JSON encoding with
stable (sorted) key ordering and no incidental whitespace. -/
def canonicalJSON (o : JObj) : String :=
  "\x7b" ++ String.intercalate "," ((o.insertionSort keyLE).map encField) ++ "\x7d"

/-- The bytes of a string, as stored in a blob. -/
def strBytes (v : String) : List Nat := v.toList.map Char.toNat

/-- Modelled from the spec: `PutBlobJSON(object)` = `PutBlob` of the canonical
serialization. -/
def PutBlobJSON (o : JObj) (s : CasStore) : (Nat × Nat) × CasStore :=
  PutBlob (strBytes (canonicalJSON o)) s

/-! Section: Diff filter (`mtreefilter.MaskFilter` composed with `FilterDeltas`)

Modelled from the spec: the filter removes any change-set entry whose path
equals a mask prefix or lies strictly under it, with path-segment-aware
matching.  Paths are represented as lists of path segments, so segment
boundaries are structural. -/

/-- The kind of a change-set entry (`mtree` delta). -/
inductive DeltaKind where
  | added
  | modified
  | removed
deriving DecidableEq

/-- A change-set entry produced by the change-detection collaborator. -/
structure Delta where
  path : List String
  kind : DeltaKind
deriving DecidableEq

/-- Segment-aware test: does mask `m` cover path `p` (equal, or `p` strictly
under `m`)? -/
def maskMatches : List String → List String → Bool
  | [], _ => true
  | _ :: _, [] => false
  | m :: ms, p :: ps => m == p && maskMatches ms ps

/-- The covering relation in the spec's words: the path equals the mask or
lies strictly under it, i.e. the mask's segments are an initial run of the
path's segments. -/
def MaskCovers (m p : List String) : Prop := ∃ rest, p = m ++ rest

theorem maskMatches_iff (m p : List String) :
    maskMatches m p = true ↔ MaskCovers m p := by
  induction m generalizing p with
  | nil => simp [maskMatches, MaskCovers]
  | cons x ms ih =>
    cases p with
    | nil =>
      simp only [maskMatches, MaskCovers]
      constructor
      · intro h
        exact absurd h (by simp)
      · rintro ⟨rest, h⟩
        exact absurd h (by simp)
    | cons y ps =>
      simp only [maskMatches, Bool.and_eq_true, beq_iff_eq, ih, MaskCovers]
      constructor
      · rintro ⟨hxy, rest, hrest⟩
        exact ⟨rest, by simp [hxy, hrest]⟩
      · rintro ⟨rest, h⟩
        simp only [List.cons_append, List.cons.injEq] at h
        exact ⟨h.1.symm, rest, h.2⟩

instance (m p : List String) : Decidable (MaskCovers m p) :=
  decidable_of_iff _ (maskMatches_iff m p)

/-- Whether a path is removed by the mask list. -/
def isMasked (masks : List (List String)) (p : List String) : Bool :=
  masks.any fun m => maskMatches m p

/-- Modelled from the spec: `FilterDeltas` with `MaskFilter(masks)` keeps
exactly the entries not covered by any mask, in their original order. -/
def FilterDeltas (masks : List (List String)) (ds : List Delta) : List Delta :=
  ds.filter fun d => !isMasked masks d.path

/-! Section: The repack driver (`cmd/umoci/repack.go`)

Embedded from `repack.go` `func repack`.  External collaborators
(`ReadBundleMeta`, `dir.Open`, `mutate.New`, `os.Open`, `mtree.ParseSpec`,
`mtree.Check`, `mutator.Config`, `layer.GenerateLayer`, `mutator.Meta`,
`time.Parse`, `mutator.Add`, `mutator.Commit`, `casext.UpdateReference`, the
refresh-bundle writes) are given as an environment of stage outcomes; the
reference table of the image store is the state the driver publishes into.
The contents of the generated history record are elided (no claim concerns
them), but the fallible parse of the `--history.created` override is kept as
a stage. -/

/-- Map options recorded in the bundle metadata (`meta.MapOptions`). -/
structure MapOptions where
  rootless : Bool
deriving DecidableEq

/-- Bundle metadata read from `umoci.json` (`ReadBundleMeta`). -/
structure BundleMeta where
  version : String
  fromDesc : DescriptorPath
  mapOptions : MapOptions
deriving DecidableEq

/-- The part of the image config that `repack` reads (`config.Volumes`,
as a list of volume paths). -/
structure ImageConfig where
  volumes : List (List String)
deriving DecidableEq

/-- The part of the image metadata that `repack` reads (`imageMeta.Author`). -/
structure ImageMeta where
  author : String
deriving DecidableEq

/-- The CLI inputs `repack` consumes from flags and app metadata. -/
structure CliCtx where
  tagName : String
  maskPath : List (List String)
  noMaskVolumes : Bool
  refreshBundle : Bool
  historyAuthor : Option String
  historyComment : Option String
  historyCreated : Option String
  historyCreatedBy : Option String
deriving DecidableEq

/-- Which stage of `repack` failed (the wrap messages of `repack.go`). -/
inductive RepackError where
  | readMeta
  | invalidFromDescriptor
  | openCas
  | createMutator
  | openMtree
  | parseMtree
  | checkMtree
  | getConfig
  | generateLayer
  | getMeta
  | parseHistoryCreated
  | addLayer
  | commit
  | updateRef
  | refreshBundle
deriving DecidableEq

/-- Outcomes of the external collaborators for one run of `repack`. -/
structure RepackEnv where
  readBundleMeta : Except Unit BundleMeta
  openCas : Bool
  newMutator : Bool
  openMtree : Bool
  parseMtree : Bool
  mtreeCheck : Except Unit (List Delta)
  mutatorConfig : Except Unit ImageConfig
  generateLayerOk : List Delta → Bool
  mutatorMeta : Except Unit ImageMeta
  parseCreatedOk : Bool
  addOk : Bool
  commit : Except Unit DescriptorPath
  updateRefOk : Bool
  refreshOk : Bool

/-- The observable outcome of a `repack` run: the returned error (if any),
the reference table of the store, whether the CAS engine was opened, and the
filtered change-set handed to `GenerateLayer` (once generation succeeded). -/
structure RepackResult where
  err : Option RepackError
  refs : List (String × Descriptor)
  casOpened : Bool
  packedDiffs : Option (List Delta)
deriving DecidableEq

/-- Modelled from the spec: `casext.UpdateReference` atomically replaces the
binding of `name` in the reference table. -/
def UpdateReference (n : String) (desc : Descriptor)
    (refs : List (String × Descriptor)) : List (String × Descriptor) :=
  (n, desc) :: refs.filter fun r => r.1 != n

/-- The mask list `repack` filters with: the user-supplied mask paths, plus
(unless the no-mask-volumes flag is set) every path in the config's
Volumes. -/
def effectiveMasks (ctx : CliCtx) (config : ImageConfig) : List (List String) :=
  ctx.maskPath ++ (if ctx.noMaskVolumes then [] else config.volumes)

/-- Embedded from `repack.go` `func repack`: the stage sequence, in source
order, with each stage's failure short-circuiting to an error return. -/
def repack (env : RepackEnv) (ctx : CliCtx)
    (refs0 : List (String × Descriptor)) : RepackResult :=
  match env.readBundleMeta with
  | .error _ => ⟨some .readMeta, refs0, false, none⟩
  | .ok meta =>
    if meta.fromDesc.descriptor.mediaType ≠ MediaTypeImageManifest then
      ⟨some .invalidFromDescriptor, refs0, false, none⟩
    else if !env.openCas then
      ⟨some .openCas, refs0, false, none⟩
    else if !env.newMutator then
      ⟨some .createMutator, refs0, true, none⟩
    else if !env.openMtree then
      ⟨some .openMtree, refs0, true, none⟩
    else if !env.parseMtree then
      ⟨some .parseMtree, refs0, true, none⟩
    else
      match env.mtreeCheck with
      | .error _ => ⟨some .checkMtree, refs0, true, none⟩
      | .ok diffs =>
        match env.mutatorConfig with
        | .error _ => ⟨some .getConfig, refs0, true, none⟩
        | .ok config =>
          let fdiffs := FilterDeltas (effectiveMasks ctx config) diffs
          if !env.generateLayerOk fdiffs then
            ⟨some .generateLayer, refs0, true, none⟩
          else
            match env.mutatorMeta with
            | .error _ => ⟨some .getMeta, refs0, true, some fdiffs⟩
            | .ok _ =>
              if ctx.historyCreated.isSome && !env.parseCreatedOk then
                ⟨some .parseHistoryCreated, refs0, true, some fdiffs⟩
              else if !env.addOk then
                ⟨some .addLayer, refs0, true, some fdiffs⟩
              else
                match env.commit with
                | .error _ => ⟨some .commit, refs0, true, some fdiffs⟩
                | .ok newPath =>
                  if !env.updateRefOk then
                    ⟨some .updateRef, refs0, true, some fdiffs⟩
                  else
                    let refs1 := UpdateReference ctx.tagName newPath.root refs0
                    if ctx.refreshBundle && !env.refreshOk then
                      ⟨some .refreshBundle, refs1, true, some fdiffs⟩
                    else
                      ⟨none, refs1, true, some fdiffs⟩

/-! Section: Helper lemmas about the store -/

theorem findSome?_filter_eq {α β : Type} (f : α → Option β) (p : α → Bool)
    (l : List α) (h : ∀ a ∈ l, p a = false → f a = none) :
    (l.filter p).findSome? f = l.findSome? f := by
  induction l with
  | nil => rfl
  | cons a l ih =>
    have ih' := ih fun x hx => h x (List.mem_cons_of_mem a hx)
    by_cases hp : p a
    · rw [List.filter_cons_of_pos hp, List.findSome?_cons, List.findSome?_cons]
      cases f a <;> simp [ih']
    · rw [List.filter_cons_of_neg (by simpa using hp), List.findSome?_cons,
        h a (List.mem_cons_self a l) (by simpa using hp)]
      exact ih'

theorem getBlob_mem {d : Nat} {c : List Nat} {s : CasStore}
    (h : GetBlob d s = some c) : StoreEntry.blob d c ∈ s.entries := by
  obtain ⟨a, ha, hfa⟩ := List.exists_of_findSome?_eq_some h
  cases a with
  | blob d' c' =>
    simp only at hfa
    by_cases hd : d' = d
    · rw [if_pos hd] at hfa
      cases hfa
      rw [← hd]
      exact ha
    · rw [if_neg hd] at hfa
      cases hfa
  | ref n desc => cases hfa
  | indexFile i => cases hfa
  | tempFile t => cases hfa

theorem putBlob_fst (b : List Nat) (s : CasStore) :
    (PutBlob b s).1 = (digestOf b, b.length) := by
  unfold PutBlob
  cases h : GetBlob (digestOf b) s <;> simp [h]

/-! Section: Claim theorems: CAS engine -/

/-- C3: for every byte sequence b, PutBlob(b) called twice returns the same
digest both times, and GetBlob on that digest returns bytes identical to b
(on any well-formed store). -/
theorem putBlob_idem_getBlob_roundtrip (b : List Nat) (s : CasStore)
    (hwf : s.WF) :
    (PutBlob b (PutBlob b s).2).1.1 = (PutBlob b s).1.1 ∧
    GetBlob (PutBlob b s).1.1 (PutBlob b s).2 = some b := by
  constructor
  · rw [putBlob_fst, putBlob_fst]
  · have hfst := putBlob_fst b s
    rw [hfst]
    show GetBlob (digestOf b) (PutBlob b s).2 = some b
    cases h : GetBlob (digestOf b) s with
    | some c =>
      have hmem := getBlob_mem h
      have hd : digestOf b = digestOf c := hwf _ _ hmem
      have hcb : c = b := (digestOf_injective hd.symm)
      simp only [PutBlob, h]
      rw [hcb]
    | none =>
      simp only [PutBlob, h]
      unfold GetBlob
      rw [List.findSome?_cons]
      simp

/-- C3 witness: the round-trip at a concrete byte sequence on the empty
store. -/
theorem putBlob_idem_getBlob_roundtrip_witness :
    (PutBlob [1, 2, 3] (PutBlob [1, 2, 3] ⟨[]⟩).2).1.1 =
      (PutBlob [1, 2, 3] ⟨[]⟩).1.1 ∧
    GetBlob (PutBlob [1, 2, 3] ⟨[]⟩).1.1 (PutBlob [1, 2, 3] ⟨[]⟩).2 =
      some [1, 2, 3] :=
  putBlob_idem_getBlob_roundtrip [1, 2, 3] ⟨[]⟩
    (fun _ _ h => absurd h (List.not_mem_nil _))

/-- C6: GetBlob on a never-written digest is NotFound; after DeleteBlob the
digest is NotFound; DeleteBlob and DeleteReference on an absent key are
successful no-ops. -/
theorem delete_absent_semantics (d : Nat) (n : String) (s : CasStore) :
    ((∀ c, StoreEntry.blob d c ∉ s.entries) → GetBlob d s = none) ∧
    GetBlob d (DeleteBlob d s) = none ∧
    (GetBlob d s = none → DeleteBlob d s = s) ∧
    (GetReference n s = none → DeleteReference n s = s) := by
  refine ⟨?_, ?_, ?_, ?_⟩
  · intro habs
    cases h : GetBlob d s with
    | some c => exact absurd (getBlob_mem h) (habs c)
    | none => rfl
  · unfold GetBlob DeleteBlob
    rw [List.findSome?_eq_none_iff]
    intro e he
    have hkeep := List.of_mem_filter he
    cases e with
    | blob d' c' =>
      simp only [decide_eq_true_eq] at hkeep
      simp [hkeep]
    | ref n' desc => rfl
    | indexFile i => rfl
    | tempFile t => rfl
  · intro h
    unfold GetBlob at h
    rw [List.findSome?_eq_none_iff] at h
    unfold DeleteBlob
    congr 1
    rw [List.filter_eq_self]
    intro e he
    have := h e he
    cases e with
    | blob d' c' =>
      simp only at this
      by_cases hd : d' = d
      · rw [if_pos hd] at this; cases this
      · simpa using hd
    | ref n' desc => rfl
    | indexFile i => rfl
    | tempFile t => rfl
  · intro h
    unfold GetReference at h
    rw [List.findSome?_eq_none_iff] at h
    unfold DeleteReference
    congr 1
    rw [List.filter_eq_self]
    intro e he
    have := h e he
    cases e with
    | blob d' c' => rfl
    | ref n' desc =>
      simp only at this
      by_cases hn : n' = n
      · rw [if_pos hn] at this; cases this
      · simpa using hn
    | indexFile i => rfl
    | tempFile t => rfl

/-- C6 witness: deleting an absent blob from the empty store is a no-op. -/
theorem delete_absent_semantics_witness :
    DeleteBlob 5 (⟨[]⟩ : CasStore) = (⟨[]⟩ : CasStore) :=
  (delete_absent_semantics 5 "tag" ⟨[]⟩).2.2.1 rfl

/-- C4: Clean removes only non-blob, non-reference artifacts: every blob,
the index, and every reference readable before the call is unchanged. -/
theorem clean_frame (s : CasStore) :
    (∀ d, GetBlob d (Clean s) = GetBlob d s) ∧
    GetIndex (Clean s) = GetIndex s ∧
    (∀ n, GetReference n (Clean s) = GetReference n s) := by
  refine ⟨?_, ?_, ?_⟩
  · intro d
    unfold GetBlob Clean
    refine findSome?_filter_eq _ _ _ fun a _ ha => ?_
    cases a with
    | tempFile t => rfl
    | blob d' c' => simp [StoreEntry.isTemp] at ha
    | ref n' desc => simp [StoreEntry.isTemp] at ha
    | indexFile i => simp [StoreEntry.isTemp] at ha
  · unfold GetIndex Clean
    refine findSome?_filter_eq _ _ _ fun a _ ha => ?_
    cases a with
    | tempFile t => rfl
    | blob d' c' => simp [StoreEntry.isTemp] at ha
    | ref n' desc => simp [StoreEntry.isTemp] at ha
    | indexFile i => simp [StoreEntry.isTemp] at ha
  · intro n
    unfold GetReference Clean
    refine findSome?_filter_eq _ _ _ fun a _ ha => ?_
    cases a with
    | tempFile t => rfl
    | blob d' c' => simp [StoreEntry.isTemp] at ha
    | ref n' desc => simp [StoreEntry.isTemp] at ha
    | indexFile i => simp [StoreEntry.isTemp] at ha

/-- C7: PutIndex(i) followed by GetIndex() returns i. -/
theorem putIndex_getIndex (i : ImageIndex) (s : CasStore) :
    GetIndex (PutIndex i s) = some i := by
  unfold GetIndex PutIndex
  rw [List.findSome?_cons]

/-- C5: PutReference returns ErrClobber exactly when a different descriptor
is already stored at the name; storing the same descriptor again is a
successful no-op. -/
theorem putReference_clobber (n : String) (desc : Descriptor) (s : CasStore) :
    (PutReference n desc s = .error .errClobber ↔
      ∃ old, GetReference n s = some old ∧ old ≠ desc) ∧
    (GetReference n s = some desc → PutReference n desc s = .ok s) := by
  constructor
  · unfold PutReference
    cases h : GetReference n s with
    | some old =>
      by_cases he : old = desc
      · simp [he]
      · simp [he]
    | none => simp
  · intro h
    unfold PutReference
    rw [h]
    simp

/-- C5 witness: re-storing the descriptor already bound to a name succeeds as
a no-op, at a concrete store. -/
theorem putReference_clobber_witness :
    PutReference "latest" ⟨MediaTypeImageManifest, 7, 42⟩
        ⟨[StoreEntry.ref "latest" ⟨MediaTypeImageManifest, 7, 42⟩]⟩ =
      .ok ⟨[StoreEntry.ref "latest" ⟨MediaTypeImageManifest, 7, 42⟩]⟩ :=
  (putReference_clobber "latest" ⟨MediaTypeImageManifest, 7, 42⟩
    ⟨[StoreEntry.ref "latest" ⟨MediaTypeImageManifest, 7, 42⟩]⟩).2 rfl

/-! Section: Claim theorems: PutBlobJSON determinism -/

/-- Strict key ordering on fields, used to identify the two sorted lists. -/
def keyLT (p q : String × JVal) : Prop := p.1 < q.1

instance : IsAntisymm (String × JVal) keyLT :=
  ⟨fun _ _ h1 h2 => absurd (lt_trans h1 h2) (lt_irrefl _)⟩

theorem insertionSort_eq_of_perm (a b : JObj) (hp : a.Perm b)
    (hn : (a.map Prod.fst).Nodup) :
    a.insertionSort keyLE = b.insertionSort keyLE := by
  have hsymm : ∀ {p q : String × JVal}, p.1 ≠ q.1 → q.1 ≠ p.1 :=
    fun h => h.symm
  have hna : List.Pairwise (fun p q : String × JVal => p.1 ≠ q.1) a :=
    List.pairwise_map.mp hn
  have hperm : (a.insertionSort keyLE).Perm (b.insertionSort keyLE) :=
    (List.perm_insertionSort keyLE a).trans
      (hp.trans (List.perm_insertionSort keyLE b).symm)
  have hstrict : ∀ (l : JObj), l.Perm a →
      List.Pairwise keyLT (l.insertionSort keyLE) := by
    intro l hl
    have h1 : List.Pairwise keyLE (l.insertionSort keyLE) :=
      List.sorted_insertionSort keyLE l
    have h2 : List.Pairwise (fun p q : String × JVal => p.1 ≠ q.1)
        (l.insertionSort keyLE) :=
      (((List.perm_insertionSort keyLE l).trans hl).pairwise_iff hsymm).mpr hna
    exact h1.imp₂ (fun _ _ hle hne => lt_of_le_of_ne hle hne) h2
  exact List.eq_of_perm_of_sorted hperm
    (hstrict a (List.Perm.refl a)) (hstrict b hp.symm)

/-- C1: PutBlobJSON is deterministic: two semantically equal objects (the
same fields, possibly in a different in-memory order) produce the same
digest. -/
theorem putBlobJSON_deterministic (a b : JObj) (s : CasStore)
    (hp : a.Perm b) (hn : (a.map Prod.fst).Nodup) :
    (PutBlobJSON a s).1.1 = (PutBlobJSON b s).1.1 := by
  unfold PutBlobJSON canonicalJSON
  rw [insertionSort_eq_of_perm a b hp hn]

/-- C1 witness: two field orderings of the same two-field object digest
identically on the empty store. -/
theorem putBlobJSON_deterministic_witness :
    (PutBlobJSON [("b", JVal.jnum 1), ("a", JVal.jstr "x")] ⟨[]⟩).1.1 =
    (PutBlobJSON [("a", JVal.jstr "x"), ("b", JVal.jnum 1)] ⟨[]⟩).1.1 :=
  putBlobJSON_deterministic
    [("b", JVal.jnum 1), ("a", JVal.jstr "x")]
    [("a", JVal.jstr "x"), ("b", JVal.jnum 1)]
    ⟨[]⟩ (by decide) (by decide)

/-! Section: Claim theorems: diff filter -/

/-- C8: the diff filter removes exactly the entries whose path equals a mask
or lies strictly under one (segment-aware), the survivors keep their relative
order (a sublist of the input), and concretely mask /a removes /a and /a/b,
preserves /c, and does not remove /ab. -/
theorem filterDeltas_spec (masks : List (List String)) (ds : List Delta) :
    List.Sublist (FilterDeltas masks ds) ds ∧
    (∀ d, d ∈ FilterDeltas masks ds ↔
      d ∈ ds ∧ ¬ ∃ m ∈ masks, MaskCovers m d.path) ∧
    FilterDeltas [["a"]]
        [⟨["a"], .added⟩, ⟨["a", "b"], .added⟩, ⟨["c"], .removed⟩] =
      [⟨["c"], .removed⟩] ∧
    FilterDeltas [["a"]] [⟨["ab"], .added⟩] = [⟨["ab"], .added⟩] := by
  refine ⟨List.filter_sublist ds, ?_, by decide, by decide⟩
  intro d
  unfold FilterDeltas
  rw [List.mem_filter]
  simp [isMasked, maskMatches_iff]

/-! Section: Helper: branch analysis of the repack driver -/

/-- Every run of `repack` either fails at a pre-publication stage with the
reference table untouched, or every stage through Commit and UpdateReference
succeeded and the tag is bound to the new manifest's root; and whenever a
filtered change-set was handed to the layer generator it is exactly the
mtree diff filtered by the effective masks. -/
theorem repack_outcome (env : RepackEnv) (ctx : CliCtx)
    (refs0 : List (String × Descriptor)) :
    ((∃ e, e ≠ RepackError.refreshBundle ∧
        (repack env ctx refs0).err = some e ∧
        (repack env ctx refs0).refs = refs0) ∨
      (∃ meta diffs config imeta newPath,
        env.readBundleMeta = .ok meta ∧
        meta.fromDesc.descriptor.mediaType = MediaTypeImageManifest ∧
        env.openCas = true ∧ env.newMutator = true ∧ env.openMtree = true ∧
        env.parseMtree = true ∧ env.mtreeCheck = .ok diffs ∧
        env.mutatorConfig = .ok config ∧
        env.generateLayerOk (FilterDeltas (effectiveMasks ctx config) diffs)
          = true ∧
        env.mutatorMeta = .ok imeta ∧ env.addOk = true ∧
        env.commit = .ok newPath ∧ env.updateRefOk = true ∧
        (ctx.historyCreated.isSome && !env.parseCreatedOk) = false ∧
        (repack env ctx refs0).refs =
          UpdateReference ctx.tagName newPath.root refs0 ∧
        ((repack env ctx refs0).err = none ∨
          (repack env ctx refs0).err = some RepackError.refreshBundle))) ∧
    (∀ l, (repack env ctx refs0).packedDiffs = some l →
      ∃ diffs config, env.mtreeCheck = .ok diffs ∧
        env.mutatorConfig = .ok config ∧
        l = FilterDeltas (effectiveMasks ctx config) diffs) := by
  rcases hrm : env.readBundleMeta with u | meta
  · exact ⟨Or.inl ⟨RepackError.readMeta, by decide,
      by simp [repack, hrm], by simp [repack, hrm]⟩,
      fun l hl => by simp [repack, hrm] at hl⟩
  by_cases hmt : meta.fromDesc.descriptor.mediaType = MediaTypeImageManifest
  case neg =>
    exact ⟨Or.inl ⟨RepackError.invalidFromDescriptor, by decide,
      by simp [repack, hrm, hmt], by simp [repack, hrm, hmt]⟩,
      fun l hl => by simp [repack, hrm, hmt] at hl⟩
  cases hoc : env.openCas with
  | false =>
    exact ⟨Or.inl ⟨RepackError.openCas, by decide,
      by simp [repack, hrm, hmt, hoc], by simp [repack, hrm, hmt, hoc]⟩,
      fun l hl => by simp [repack, hrm, hmt, hoc] at hl⟩
  | true =>
  cases hnm : env.newMutator with
  | false =>
    exact ⟨Or.inl ⟨RepackError.createMutator, by decide,
      by simp [repack, hrm, hmt, hoc, hnm],
      by simp [repack, hrm, hmt, hoc, hnm]⟩,
      fun l hl => by simp [repack, hrm, hmt, hoc, hnm] at hl⟩
  | true =>
  cases hom : env.openMtree with
  | false =>
    exact ⟨Or.inl ⟨RepackError.openMtree, by decide,
      by simp [repack, hrm, hmt, hoc, hnm, hom],
      by simp [repack, hrm, hmt, hoc, hnm, hom]⟩,
      fun l hl => by simp [repack, hrm, hmt, hoc, hnm, hom] at hl⟩
  | true =>
  cases hpm : env.parseMtree with
  | false =>
    exact ⟨Or.inl ⟨RepackError.parseMtree, by decide,
      by simp [repack, hrm, hmt, hoc, hnm, hom, hpm],
      by simp [repack, hrm, hmt, hoc, hnm, hom, hpm]⟩,
      fun l hl => by simp [repack, hrm, hmt, hoc, hnm, hom, hpm] at hl⟩
  | true =>
  rcases hmc : env.mtreeCheck with u | diffs
  · exact ⟨Or.inl ⟨RepackError.checkMtree, by decide,
      by simp [repack, hrm, hmt, hoc, hnm, hom, hpm, hmc],
      by simp [repack, hrm, hmt, hoc, hnm, hom, hpm, hmc]⟩,
      fun l hl => by simp [repack, hrm, hmt, hoc, hnm, hom, hpm, hmc] at hl⟩
  rcases hcfg : env.mutatorConfig with u | config
  · exact ⟨Or.inl ⟨RepackError.getConfig, by decide,
      by simp [repack, hrm, hmt, hoc, hnm, hom, hpm, hmc, hcfg],
      by simp [repack, hrm, hmt, hoc, hnm, hom, hpm, hmc, hcfg]⟩,
      fun l hl =>
        by simp [repack, hrm, hmt, hoc, hnm, hom, hpm, hmc, hcfg] at hl⟩
  cases hgl : env.generateLayerOk (FilterDeltas (effectiveMasks ctx config)
      diffs) with
  | false =>
    exact ⟨Or.inl ⟨RepackError.generateLayer, by decide,
      by simp [repack, hrm, hmt, hoc, hnm, hom, hpm, hmc, hcfg, hgl],
      by simp [repack, hrm, hmt, hoc, hnm, hom, hpm, hmc, hcfg, hgl]⟩,
      fun l hl =>
        by simp [repack, hrm, hmt, hoc, hnm, hom, hpm, hmc, hcfg, hgl] at hl⟩
  | true =>
  rcases hmm : env.mutatorMeta with u | imeta
  · refine ⟨Or.inl ⟨RepackError.getMeta, by decide,
      by simp [repack, hrm, hmt, hoc, hnm, hom, hpm, hmc, hcfg, hgl, hmm],
      by simp [repack, hrm, hmt, hoc, hnm, hom, hpm, hmc, hcfg, hgl, hmm]⟩,
      fun l hl => ?_⟩
    simp [repack, hrm, hmt, hoc, hnm, hom, hpm, hmc, hcfg, hgl, hmm] at hl
    exact ⟨diffs, config, rfl, rfl, hl.symm⟩
  cases hhc : ctx.historyCreated.isSome && !env.parseCreatedOk with
  | true =>
    refine ⟨Or.inl ⟨RepackError.parseHistoryCreated, by decide,
      by simp [repack, hrm, hmt, hoc, hnm, hom, hpm, hmc, hcfg, hgl, hmm,
        hhc],
      by simp [repack, hrm, hmt, hoc, hnm, hom, hpm, hmc, hcfg, hgl, hmm,
        hhc]⟩,
      fun l hl => ?_⟩
    simp [repack, hrm, hmt, hoc, hnm, hom, hpm, hmc, hcfg, hgl, hmm, hhc]
      at hl
    exact ⟨diffs, config, rfl, rfl, hl.symm⟩
  | false =>
  cases hao : env.addOk with
  | false =>
    refine ⟨Or.inl ⟨RepackError.addLayer, by decide,
      by simp [repack, hrm, hmt, hoc, hnm, hom, hpm, hmc, hcfg, hgl, hmm,
        hhc, hao],
      by simp [repack, hrm, hmt, hoc, hnm, hom, hpm, hmc, hcfg, hgl, hmm,
        hhc, hao]⟩,
      fun l hl => ?_⟩
    simp [repack, hrm, hmt, hoc, hnm, hom, hpm, hmc, hcfg, hgl, hmm, hhc,
      hao] at hl
    exact ⟨diffs, config, rfl, rfl, hl.symm⟩
  | true =>
  rcases hcm : env.commit with u | newPath
  · refine ⟨Or.inl ⟨RepackError.commit, by decide,
      by simp [repack, hrm, hmt, hoc, hnm, hom, hpm, hmc, hcfg, hgl, hmm,
        hhc, hao, hcm],
      by simp [repack, hrm, hmt, hoc, hnm, hom, hpm, hmc, hcfg, hgl, hmm,
        hhc, hao, hcm]⟩,
      fun l hl => ?_⟩
    simp [repack, hrm, hmt, hoc, hnm, hom, hpm, hmc, hcfg, hgl, hmm, hhc,
      hao, hcm] at hl
    exact ⟨diffs, config, rfl, rfl, hl.symm⟩
  cases hur : env.updateRefOk with
  | false =>
    refine ⟨Or.inl ⟨RepackError.updateRef, by decide,
      by simp [repack, hrm, hmt, hoc, hnm, hom, hpm, hmc, hcfg, hgl, hmm,
        hhc, hao, hcm, hur],
      by simp [repack, hrm, hmt, hoc, hnm, hom, hpm, hmc, hcfg, hgl, hmm,
        hhc, hao, hcm, hur]⟩,
      fun l hl => ?_⟩
    simp [repack, hrm, hmt, hoc, hnm, hom, hpm, hmc, hcfg, hgl, hmm, hhc,
      hao, hcm, hur] at hl
    exact ⟨diffs, config, rfl, rfl, hl.symm⟩
  | true =>
  cases hrf : ctx.refreshBundle && !env.refreshOk with
  | true =>
    refine ⟨Or.inr ⟨meta, diffs, config, imeta, newPath, rfl, hmt, rfl, rfl,
      rfl, rfl, rfl, rfl, hgl, rfl, rfl, rfl, rfl, rfl, ?_, Or.inr ?_⟩,
      fun l hl => ?_⟩
    · simp [repack, hrm, hmt, hoc, hnm, hom, hpm, hmc, hcfg, hgl, hmm, hhc,
        hao, hcm, hur, hrf]
    · simp [repack, hrm, hmt, hoc, hnm, hom, hpm, hmc, hcfg, hgl, hmm, hhc,
        hao, hcm, hur, hrf]
    · simp [repack, hrm, hmt, hoc, hnm, hom, hpm, hmc, hcfg, hgl, hmm, hhc,
        hao, hcm, hur, hrf] at hl
      exact ⟨diffs, config, rfl, rfl, hl.symm⟩
  | false =>
    refine ⟨Or.inr ⟨meta, diffs, config, imeta, newPath, rfl, hmt, rfl, rfl,
      rfl, rfl, rfl, rfl, hgl, rfl, rfl, rfl, rfl, rfl, ?_, Or.inl ?_⟩,
      fun l hl => ?_⟩
    · simp [repack, hrm, hmt, hoc, hnm, hom, hpm, hmc, hcfg, hgl, hmm, hhc,
        hao, hcm, hur, hrf]
    · simp [repack, hrm, hmt, hoc, hnm, hom, hpm, hmc, hcfg, hgl, hmm, hhc,
        hao, hcm, hur, hrf]
    · simp [repack, hrm, hmt, hoc, hnm, hom, hpm, hmc, hcfg, hgl, hmm, hhc,
        hao, hcm, hur, hrf] at hl
      exact ⟨diffs, config, rfl, rfl, hl.symm⟩

/-- C4 witness: cleaning a store holding one blob and one temporary file
leaves the blob readable. -/
theorem clean_frame_witness :
    GetBlob (digestOf [7])
        (Clean ⟨[StoreEntry.blob (digestOf [7]) [7],
          StoreEntry.tempFile "tmp"]⟩) =
      GetBlob (digestOf [7])
        ⟨[StoreEntry.blob (digestOf [7]) [7], StoreEntry.tempFile "tmp"]⟩ :=
  (clean_frame ⟨[StoreEntry.blob (digestOf [7]) [7],
    StoreEntry.tempFile "tmp"]⟩).1 (digestOf [7])

/-- C7 witness: the index round-trip at a concrete index and store. -/
theorem putIndex_getIndex_witness :
    GetIndex (PutIndex ⟨[⟨MediaTypeImageManifest, 3, 9⟩]⟩ ⟨[]⟩) =
      some ⟨[⟨MediaTypeImageManifest, 3, 9⟩]⟩ :=
  putIndex_getIndex ⟨[⟨MediaTypeImageManifest, 3, 9⟩]⟩ ⟨[]⟩

/-- C8 witness: the spec's worked example, extracted from the filter
theorem. -/
theorem filterDeltas_spec_witness :
    FilterDeltas [["a"]]
        [⟨["a"], .added⟩, ⟨["a", "b"], .added⟩, ⟨["c"], .removed⟩] =
      [⟨["c"], .removed⟩] :=
  (filterDeltas_spec [["a"]]
    [⟨["a"], .added⟩, ⟨["a", "b"], .added⟩, ⟨["c"], .removed⟩]).2.2.1

/-! Section: Claim theorems: repack driver -/

/-- C2: if any pre-publication stage of repack fails, the run returns that
stage's error with the reference table untouched; any failing stage outcome
in the environment forces an error return with nothing published; and the
tag is rebound only when every stage up to and including Commit (and the
reference update itself) succeeded, and then it is bound to the new
manifest's root descriptor. -/
theorem repack_publish_safety (env : RepackEnv) (ctx : CliCtx)
    (refs0 : List (String × Descriptor)) :
    (∀ e, (repack env ctx refs0).err = some e →
      e ≠ RepackError.refreshBundle →
      (repack env ctx refs0).refs = refs0) ∧
    ((repack env ctx refs0).refs ≠ refs0 →
      ∃ meta diffs config imeta newPath,
        env.readBundleMeta = .ok meta ∧
        meta.fromDesc.descriptor.mediaType = MediaTypeImageManifest ∧
        env.openCas = true ∧ env.newMutator = true ∧ env.openMtree = true ∧
        env.parseMtree = true ∧ env.mtreeCheck = .ok diffs ∧
        env.mutatorConfig = .ok config ∧
        env.generateLayerOk (FilterDeltas (effectiveMasks ctx config) diffs)
          = true ∧
        env.mutatorMeta = .ok imeta ∧ env.addOk = true ∧
        env.commit = .ok newPath ∧ env.updateRefOk = true ∧
        (repack env ctx refs0).refs =
          UpdateReference ctx.tagName newPath.root refs0) ∧
    ((env.readBundleMeta = .error () ∨
      (∃ meta, env.readBundleMeta = .ok meta ∧
        meta.fromDesc.descriptor.mediaType ≠ MediaTypeImageManifest) ∨
      env.openCas = false ∨ env.newMutator = false ∨
      env.openMtree = false ∨ env.parseMtree = false ∨
      env.mtreeCheck = .error () ∨ env.mutatorConfig = .error () ∨
      (∃ diffs config, env.mtreeCheck = .ok diffs ∧
        env.mutatorConfig = .ok config ∧
        env.generateLayerOk (FilterDeltas (effectiveMasks ctx config) diffs)
          = false) ∨
      env.mutatorMeta = .error () ∨
      (ctx.historyCreated.isSome = true ∧ env.parseCreatedOk = false) ∨
      env.addOk = false ∨ env.commit = .error () ∨
      env.updateRefOk = false) →
      ∃ e, (repack env ctx refs0).err = some e ∧
        e ≠ RepackError.refreshBundle ∧
        (repack env ctx refs0).refs = refs0) := by
  obtain ⟨houtcome, _⟩ := repack_outcome env ctx refs0
  refine ⟨?_, ?_, ?_⟩
  · intro e he hne
    rcases houtcome with ⟨e', hne', he', hr⟩ |
      ⟨m, d, c, im, np, _, _, _, _, _, _, _, _, _, _, _, _, _, _, _, herr⟩
    · exact hr
    · rcases herr with h0 | h0 <;> rw [h0] at he
      · cases he
      · cases he
        exact absurd rfl hne
  · intro hr
    rcases houtcome with ⟨e', _, _, hr0⟩ |
      ⟨m, d, c, im, np, h1, h2, h3, h4, h5, h6, h7, h8, h9, h10, h11, h12,
        h13, _, h14, _⟩
    · exact absurd hr0 hr
    · exact ⟨m, d, c, im, np, h1, h2, h3, h4, h5, h6, h7, h8, h9, h10, h11,
        h12, h13, h14⟩
  · intro hfail
    rcases houtcome with ⟨e', hne', he', hr⟩ |
      ⟨m, d, c, im, np, h1, h2, h3, h4, h5, h6, h7, h8, h9, h10, h11, h12,
        h13, hpc, _, _⟩
    · exact ⟨e', he', hne', hr⟩
    · exfalso
      rcases hfail with hf | hf | hf | hf | hf | hf | hf | hf | hf | hf |
        hf | hf | hf | hf
      · rw [h1] at hf
        cases hf
      · obtain ⟨m', hm', hmt'⟩ := hf
        rw [h1] at hm'
        injection hm' with hmm'
        subst hmm'
        exact hmt' h2
      · rw [h3] at hf
        cases hf
      · rw [h4] at hf
        cases hf
      · rw [h5] at hf
        cases hf
      · rw [h6] at hf
        cases hf
      · rw [h7] at hf
        cases hf
      · rw [h8] at hf
        cases hf
      · obtain ⟨d', c', hd', hc', hg'⟩ := hf
        rw [h7] at hd'
        injection hd' with hdd'
        subst hdd'
        rw [h8] at hc'
        injection hc' with hcc'
        subst hcc'
        rw [hg'] at h9
        cases h9
      · rw [h10] at hf
        cases hf
      · rw [hf.1, hf.2] at hpc
        simp at hpc
      · rw [h11] at hf
        cases hf
      · rw [h12] at hf
        cases hf
      · rw [h13] at hf
        cases hf

/-- A concrete bundle metadata whose From descriptor is a manifest. -/
def witnessMeta : BundleMeta :=
  ⟨"2", ⟨⟨MediaTypeImageManifest, 10, 4⟩, ⟨MediaTypeImageManifest, 11, 9⟩⟩,
    ⟨false⟩⟩

/-- A concrete CLI context. -/
def witnessCtx : CliCtx :=
  ⟨"latest", [], false, false, none, none, none, none⟩

/-- A concrete environment in which every stage succeeds. -/
def witnessEnvOk : RepackEnv :=
  ⟨.ok witnessMeta, true, true, true, true,
    .ok [⟨["vol", "data"], .added⟩, ⟨["etc"], .modified⟩],
    .ok ⟨[["vol"]]⟩, fun _ => true, .ok ⟨"author"⟩, true, true,
    .ok ⟨⟨MediaTypeImageManifest, 20, 4⟩, ⟨MediaTypeImageManifest, 21, 9⟩⟩,
    true, true⟩

/-- C2 witness: with a failing Commit stage, repack returns an error (the
commit stage's, in particular not the post-publication refresh error) and
publishes nothing. -/
theorem repack_publish_safety_witness :
    ∃ e, (repack { witnessEnvOk with commit := .error () }
        witnessCtx []).err = some e ∧
      e ≠ RepackError.refreshBundle ∧
      (repack { witnessEnvOk with commit := .error () } witnessCtx []).refs =
        ([] : List (String × Descriptor)) :=
  (repack_publish_safety { witnessEnvOk with commit := .error () }
    witnessCtx []).2.2
    (Or.inr (Or.inr (Or.inr (Or.inr (Or.inr (Or.inr (Or.inr (Or.inr
      (Or.inr (Or.inr (Or.inr (Or.inr (Or.inl rfl)))))))))))))

/-- C9: a saved From descriptor whose media type is not the OCI image
manifest type makes repack fail with the invalid-saved-from-descriptor error
before the CAS engine is opened and without touching the references. -/
theorem repack_invalid_from (env : RepackEnv) (ctx : CliCtx)
    (refs0 : List (String × Descriptor)) (meta : BundleMeta)
    (hm : env.readBundleMeta = .ok meta)
    (hmt : meta.fromDesc.descriptor.mediaType ≠ MediaTypeImageManifest) :
    repack env ctx refs0 =
      ⟨some RepackError.invalidFromDescriptor, refs0, false, none⟩ := by
  unfold repack
  rw [hm]
  simp [hmt]

/-- A concrete bundle metadata whose From descriptor has a non-manifest
media type. -/
def witnessBogusMeta : BundleMeta :=
  ⟨"2", ⟨⟨MediaTypeImageManifest, 10, 4⟩, ⟨"bogus", 11, 9⟩⟩, ⟨false⟩⟩

/-- C9 witness: a From descriptor with a bogus media type at a concrete
environment. -/
theorem repack_invalid_from_witness :
    repack { witnessEnvOk with readBundleMeta := .ok witnessBogusMeta }
      witnessCtx [] =
      ⟨some RepackError.invalidFromDescriptor, [], false, none⟩ :=
  repack_invalid_from _ witnessCtx [] witnessBogusMeta rfl (by decide)

/-- C10: unless the no-mask-volumes flag is set, repack appends every volume
path of the base config to the user mask list before filtering, so no change
covered by a declared volume path reaches the generated layer. -/
theorem repack_masks_volumes (env : RepackEnv) (ctx : CliCtx)
    (refs0 : List (String × Descriptor)) (config : ImageConfig)
    (l : List Delta)
    (hnv : ctx.noMaskVolumes = false)
    (hcfg : env.mutatorConfig = .ok config)
    (hl : (repack env ctx refs0).packedDiffs = some l) :
    effectiveMasks ctx config = ctx.maskPath ++ config.volumes ∧
    (∀ d ∈ l, ∀ v ∈ config.volumes, ¬ MaskCovers v d.path) := by
  have hmask : effectiveMasks ctx config = ctx.maskPath ++ config.volumes :=
    by simp [effectiveMasks, hnv]
  refine ⟨hmask, ?_⟩
  obtain ⟨_, hpd⟩ := repack_outcome env ctx refs0
  obtain ⟨diffs, config', hmc, hcfg', hleq⟩ := hpd l hl
  rw [hcfg] at hcfg'
  injection hcfg' with hc
  subst hc
  intro d hd v hv
  rw [hleq] at hd
  unfold FilterDeltas at hd
  rw [List.mem_filter] at hd
  have hunmasked : isMasked (effectiveMasks ctx config) d.path = false := by
    simpa using hd.2
  intro hcov
  have hvm : v ∈ effectiveMasks ctx config := by
    rw [hmask]
    exact List.mem_append_right _ hv
  have hmm2 : maskMatches v d.path = true := (maskMatches_iff _ _).mpr hcov
  have hmasked : isMasked (effectiveMasks ctx config) d.path = true := by
    unfold isMasked
    exact List.any_eq_true.mpr ⟨v, hvm, hmm2⟩
  rw [hmasked] at hunmasked
  cases hunmasked

/-- C10 witness: with one declared volume and one change under it, the
change-set handed to the layer generator omits the volume-covered change. -/
theorem repack_masks_volumes_witness :
    effectiveMasks witnessCtx ⟨[["vol"]]⟩ =
      witnessCtx.maskPath ++ [["vol"]] ∧
    (∀ d ∈ [Delta.mk ["etc"] .modified], ∀ v ∈ [["vol"]],
      ¬ MaskCovers v d.path) :=
  repack_masks_volumes witnessEnvOk witnessCtx [] ⟨[["vol"]]⟩
    [Delta.mk ["etc"] .modified] rfl rfl (by decide)

end Umoci
